import Mathlib

/-!
Shallow embedding of `src/python/holter_hybrid_system.py` (ECG-IMU-XSpace).

Conventions:
* Python floats are modelled as exact rationals (`ℚ`).
* Lists model Python lists / 1-d numpy arrays.
* The external wavelet library (`pywt.wavedec` / `pywt.waverec`) and the
  irrational-valued `np.sqrt(2*np.log n)` factor are external collaborators,
  abstracted as the fields of a `WaveletXform` record; everything the
  repository itself computes (medians, percentiles, soft thresholding,
  buffer management, emission) is embedded concretely.
* Fallible operations (numpy errors / Python exceptions) return `Option`.
-/

/-- `np.median` for a list of rationals: sort ascending, middle element for
odd length, mean of the two middle elements for even length.  `np.median` of
an empty array is `nan`; we return `0` there (that branch is never reached on
the states the theorems below speak about). -/
def npMedian (xs : List ℚ) : ℚ :=
  let s := xs.insertionSort (· ≤ ·)
  let n := xs.length
  if n = 0 then 0
  else if n % 2 = 1 then s.getD (n / 2) 0
  else (s.getD (n / 2 - 1) 0 + s.getD (n / 2) 0) / 2

/-- `np.percentile(xs, q)` with numpy's default linear interpolation:
`pos = q/100 * (n-1)`, `k = ⌊pos⌋`, result `s[k] + (pos-k) * (s[k+1] - s[k])`
on the ascending sort `s`.  Empty input yields `nan` in numpy; we return 0. -/
def npPercentile (q : ℚ) (xs : List ℚ) : ℚ :=
  let s := xs.insertionSort (· ≤ ·)
  let n := xs.length
  if n = 0 then 0
  else
    let pos : ℚ := q / 100 * ((n : ℚ) - 1)
    let k : ℕ := (Int.floor pos).toNat
    let d : ℚ := pos - (k : ℚ)
    let a := s.getD k 0
    let b := s.getD (k + 1) a
    a + d * (b - a)

/-- `np.mean` of a boolean numpy array: fraction of `true` entries.
Empty input yields `nan` in numpy; here `0/0 = 0`. -/
def npMeanBool (mask : List Bool) : ℚ :=
  ((mask.countP id : ℕ) : ℚ) / (mask.length : ℚ)

/-- `pywt.threshold(x, t, mode='soft')` on one coefficient:
`sign(x) * max(|x| - t, 0)`, with `0 ↦ 0`. -/
def pywtThresholdSoft (t x : ℚ) : ℚ :=
  if x = 0 then 0
  else if |x| - t ≤ 0 then 0
  else if 0 < x then x - t else x + t

/-- Python `lst[-k:]` (as used by the buffer slide): for `k > 0` the last
`min k len` elements; for `k = 0`, `lst[-0:] = lst[0:]` is the whole list. -/
def pySliceLast (k : ℕ) (l : List ℚ) : List ℚ :=
  if k = 0 then l else l.drop (l.length - k)

/-- The external numeric collaborators of `adaptive_wavelet_filter`:
`pywt.wavedec`, `pywt.waverec` (db4 coefficients are irrational, so the
transform itself cannot be an exact rational computation) and the scalar
`np.sqrt(2 * np.log n)` of the universal-threshold formula. -/
structure WaveletXform where
  wavedec : List ℚ → ℕ → List (List ℚ)
  waverec : List (List ℚ) → List ℚ
  sqrtTwoLog : ℕ → ℚ

/-- The fields of the global `HolterConfig` class that the processing engine
reads (network/file-system fields are peripheral and omitted). -/
structure HolterConfig where
  WINDOW_SIZE : ℕ
  OVERLAP : ℕ
  DECOMPOSITION_LEVEL : ℕ
  ACC_THRESHOLD_PERCENTILE : ℚ
  THRESHOLD_MULTIPLIER_HIGH_MOTION : ℚ
  THRESHOLD_MULTIPLIER_LOW_MOTION : ℚ
deriving DecidableEq

/-- The values assigned in the source's `HolterConfig` class body. -/
def holterConfig : HolterConfig :=
  { WINDOW_SIZE := 500
    OVERLAP := 250
    DECOMPOSITION_LEVEL := 5
    ACC_THRESHOLD_PERCENTILE := 75
    THRESHOLD_MULTIPLIER_HIGH_MOTION := 5/2
    THRESHOLD_MULTIPLIER_LOW_MOTION := 1 }

/-- `detect_motion_segments`: elementwise `acc_magnitude > threshold`. -/
def detect_motion_segments (acc_magnitude : List ℚ) (threshold : ℚ) : List Bool :=
  acc_magnitude.map (fun a => decide (threshold < a))

/-- `sigma = np.median(np.abs(coeffs[-1])) / 0.6745` (MAD noise estimate). -/
def sigmaMAD (coeffs : List (List ℚ)) : ℚ :=
  npMedian ((coeffs.getLastD []).map (fun x => |x|)) / (6745/10000)

/-- `threshold_base = sigma * np.sqrt(2 * np.log(len(ecg_signal)))`. -/
def thresholdBase (W : WaveletXform) (n : ℕ) (coeffs : List (List ℚ)) : ℚ :=
  sigmaMAD coeffs * W.sqrtTwoLog n

/-- The per-band threshold computed inside the loop of
`adaptive_wavelet_filter`: `level_factor = 1.5 ** (len(coeffs) - i)` and the
motion-dependent multiplier chosen by `np.mean(motion_mask) > 0.3`. -/
def bandThreshold (cfg : HolterConfig) (threshold_base meanMask : ℚ)
    (numCoeffs i : ℕ) : ℚ :=
  let level_factor : ℚ := (3/2) ^ (numCoeffs - i)
  if meanMask > 3/10 then
    threshold_base * cfg.THRESHOLD_MULTIPLIER_HIGH_MOTION * level_factor
  else
    threshold_base * cfg.THRESHOLD_MULTIPLIER_LOW_MOTION * level_factor

/-- The `for i in range(1, len(coeffs))` loop body applied to the detail
bands: band at loop index `i` is soft-thresholded with `bandThreshold`. -/
def threshDetails (cfg : HolterConfig) (threshold_base meanMask : ℚ)
    (numCoeffs : ℕ) : ℕ → List (List ℚ) → List (List ℚ)
  | _, [] => []
  | i, d :: ds =>
      d.map (pywtThresholdSoft (bandThreshold cfg threshold_base meanMask numCoeffs i)) ::
        threshDetails cfg threshold_base meanMask numCoeffs (i + 1) ds

/-- `coeffs_filtered = [coeffs[0]]` followed by the detail-band loop. -/
def coeffsFiltered (cfg : HolterConfig) (threshold_base meanMask : ℚ) :
    List (List ℚ) → List (List ℚ)
  | [] => []
  | c0 :: rest => c0 :: threshDetails cfg threshold_base meanMask (rest.length + 1) 1 rest

/-- The coefficient set handed to `pywt.waverec` by `adaptive_wavelet_filter`. -/
def filterCoeffs (cfg : HolterConfig) (W : WaveletXform) (ecg_signal : List ℚ)
    (motion_mask : List Bool) (level : ℕ) : List (List ℚ) :=
  let coeffs := W.wavedec ecg_signal level
  coeffsFiltered cfg (thresholdBase W ecg_signal.length coeffs) (npMeanBool motion_mask) coeffs

/-- `ecg_filtered = pywt.waverec(coeffs_filtered, wavelet)`. -/
def reconOf (cfg : HolterConfig) (W : WaveletXform) (ecg_signal : List ℚ)
    (motion_mask : List Bool) (level : ℕ) : List ℚ :=
  W.waverec (filterCoeffs cfg W ecg_signal motion_mask level)

/-- The length-reconciliation tail of `adaptive_wavelet_filter`: truncate a
longer reconstruction, pad a shorter one with `np.pad(..., 'edge')`
(replicating the last value; numpy raises on an empty array, hence `none`). -/
def adjustLength (recon : List ℚ) (n : ℕ) : Option (List ℚ) :=
  if n < recon.length then some (recon.take n)
  else if recon.length < n then
    match recon.getLast? with
    | some v => some (recon ++ List.replicate (n - recon.length) v)
    | none => none
  else some recon

/-- `adaptive_wavelet_filter(ecg_signal, motion_mask, wavelet, level)`.
`none` models a raised Python exception (`coeffs[-1]` on an empty
decomposition, or `np.pad 'edge'` on an empty reconstruction). -/
def adaptive_wavelet_filter (cfg : HolterConfig) (W : WaveletXform)
    (ecg_signal : List ℚ) (motion_mask : List Bool) (level : ℕ) : Option (List ℚ) :=
  if W.wavedec ecg_signal level = [] then none
  else adjustLength (reconOf cfg W ecg_signal motion_mask level) ecg_signal.length

/-- The `Sample` record (one parsed UDP line handed to `process_sample`):
`data = [timestamp, ECG_I, ECG_II, ECG_III, AccX, AccY, AccZ, AccMag]`. -/
structure Sample where
  timestamp : ℚ
  ecg_I : ℚ
  ecg_II : ℚ
  ecg_III : ℚ
  acc_x : ℚ
  acc_y : ℚ
  acc_z : ℚ
  acc_mag : ℚ
deriving DecidableEq

/-- The mutable state of a `WaveletProcessor` instance.  `raw_rows` and
`filtered_rows` model the rows appended to `raw_data.csv` and
`filtered_data.csv` (a filtered row is `(timestamp, I_filt, II_filt,
III_filt)`). -/
structure ProcState where
  ecg_I_buffer : List ℚ
  ecg_II_buffer : List ℚ
  ecg_III_buffer : List ℚ
  acc_mag_buffer : List ℚ
  timestamp_buffer : List ℚ
  acc_threshold : Option ℚ
  raw_rows : List Sample
  filtered_rows : List (ℚ × ℚ × ℚ × ℚ)
deriving DecidableEq

/-- The initial buffer/file state built in `WaveletProcessor.__init__`. -/
def initState : ProcState :=
  { ecg_I_buffer := [], ecg_II_buffer := [], ecg_III_buffer := []
    acc_mag_buffer := [], timestamp_buffer := [], acc_threshold := none
    raw_rows := [], filtered_rows := [] }

/-- The append half of `process_sample`: save the raw row, then append the
sample's fields to the five parallel buffers. -/
def appendSample (st : ProcState) (d : Sample) : ProcState :=
  { st with
    raw_rows := st.raw_rows ++ [d]
    timestamp_buffer := st.timestamp_buffer ++ [d.timestamp]
    ecg_I_buffer := st.ecg_I_buffer ++ [d.ecg_I]
    ecg_II_buffer := st.ecg_II_buffer ++ [d.ecg_II]
    ecg_III_buffer := st.ecg_III_buffer ++ [d.ecg_III]
    acc_mag_buffer := st.acc_mag_buffer ++ [d.acc_mag] }

/-- The slide half of `process_sample`: every buffer becomes
`buffer[-OVERLAP:]`. -/
def slideState (cfg : HolterConfig) (st : ProcState) : ProcState :=
  { st with
    timestamp_buffer := pySliceLast cfg.OVERLAP st.timestamp_buffer
    ecg_I_buffer := pySliceLast cfg.OVERLAP st.ecg_I_buffer
    ecg_II_buffer := pySliceLast cfg.OVERLAP st.ecg_II_buffer
    ecg_III_buffer := pySliceLast cfg.OVERLAP st.ecg_III_buffer
    acc_mag_buffer := pySliceLast cfg.OVERLAP st.acc_mag_buffer }

/-- The motion threshold used by `_process_window`: the stored one, or (on
the first window, `acc_threshold is None`) the `ACC_THRESHOLD_PERCENTILE`-th
percentile of the current window's acceleration magnitudes. -/
def thrOf (cfg : HolterConfig) (st : ProcState) : ℚ :=
  match st.acc_threshold with
  | none => npPercentile cfg.ACC_THRESHOLD_PERCENTILE st.acc_mag_buffer
  | some t => t

/-- `WaveletProcessor._process_window`: calibrate/reuse the motion threshold,
compute the motion mask, run `adaptive_wavelet_filter` on each ECG lead, and
append the first `len(timestamps) - OVERLAP` filtered rows to the filtered
sink.  `none` models an exception escaping from a filter call. -/
def processWindow (cfg : HolterConfig) (W : WaveletXform) (st : ProcState) :
    Option ProcState :=
  let thr := thrOf cfg st
  let motion_mask := detect_motion_segments st.acc_mag_buffer thr
  match adaptive_wavelet_filter cfg W st.ecg_I_buffer motion_mask cfg.DECOMPOSITION_LEVEL,
      adaptive_wavelet_filter cfg W st.ecg_II_buffer motion_mask cfg.DECOMPOSITION_LEVEL,
      adaptive_wavelet_filter cfg W st.ecg_III_buffer motion_mask cfg.DECOMPOSITION_LEVEL with
  | some fI, some fII, some fIII =>
      let nNew := st.timestamp_buffer.length - cfg.OVERLAP
      let newRows := (List.range nNew).map fun i =>
        (st.timestamp_buffer.getD i 0, fI.getD i 0, fII.getD i 0, fIII.getD i 0)
      some { st with acc_threshold := some thr
                     filtered_rows := st.filtered_rows ++ newRows }
  | _, _, _ => none

/-- `WaveletProcessor.process_sample`: append; if the buffer has reached
`WINDOW_SIZE`, process the window and then slide every buffer. -/
def processSample (cfg : HolterConfig) (W : WaveletXform) (st : ProcState)
    (d : Sample) : Option ProcState :=
  let st1 := appendSample st d
  if cfg.WINDOW_SIZE ≤ st1.ecg_I_buffer.length then
    (processWindow cfg W st1).map (slideState cfg)
  else some st1

/-- The length-synchronization invariant of the five parallel buffers. -/
def BuffersSync (st : ProcState) : Prop :=
  st.ecg_I_buffer.length = st.timestamp_buffer.length ∧
  st.ecg_II_buffer.length = st.timestamp_buffer.length ∧
  st.ecg_III_buffer.length = st.timestamp_buffer.length ∧
  st.acc_mag_buffer.length = st.timestamp_buffer.length

instance (st : ProcState) : Decidable (BuffersSync st) := by
  unfold BuffersSync; infer_instance

/-- Python's `str.split(',')` on a message modelled as its character list
(the decoded, stripped UDP payload).  `''.split(',') = ['']`. -/
def splitComma : List Char → List (List Char)
  | [] => [[]]
  | c :: cs =>
      if c = ',' then [] :: splitComma cs
      else
        match splitComma cs with
        | [] => [[c]]
        | w :: ws => (c :: w) :: ws

/-- Strip leading and trailing whitespace from a character list. -/
def trimChars (cs : List Char) : List Char :=
  ((cs.dropWhile Char.isWhitespace).reverse.dropWhile Char.isWhitespace).reverse

/-- Digit list to natural number (helper for the float grammar). -/
def digitsToNat (cs : List Char) : ℕ :=
  cs.foldl (fun acc c => 10 * acc + (c.toNat - '0'.toNat)) 0

/-- Python's `float(s)` on the decimal strings this system receives:
optional sign, then `digits`, `digits.digits`, `digits.` or `.digits`,
surrounding whitespace stripped.  (Python additionally accepts exponents,
`inf`/`nan` and digit underscores; none of those occur in the claims and the
8-field wire format, so this model omits them.)  `none` models `ValueError`. -/
def pyFloat? (s : List Char) : Option ℚ :=
  let cs := trimChars s
  let sign : ℚ := if cs.head? = some '-' then -1 else 1
  let cs := if cs.head? = some '-' ∨ cs.head? = some '+' then cs.tail else cs
  let intPart := cs.takeWhile Char.isDigit
  let rest := cs.dropWhile Char.isDigit
  match rest with
  | [] =>
      if intPart.isEmpty then none
      else some (sign * (digitsToNat intPart : ℚ))
  | '.' :: rest2 =>
      let fracPart := rest2.takeWhile Char.isDigit
      let rest3 := rest2.dropWhile Char.isDigit
      if rest3.isEmpty ∧ ¬(intPart.isEmpty ∧ fracPart.isEmpty) then
        some (sign * ((digitsToNat intPart : ℚ) +
          (digitsToNat fracPart : ℚ) / (10 : ℚ) ^ fracPart.length))
      else none
  | _ => none

/-- What `UDPReceiver._receive_loop` does with one decoded, stripped
message. -/
inductive UdpAction where
  /-- `startswith("ERROR")/("SYSTEM")`: printed as a system message,
  never parsed. -/
  | control : UdpAction
  /-- parsed to exactly 8 floats: `data_queue.put(values)`. -/
  | enqueue : List ℚ → UdpAction
  /-- a field failed `float()` (`ValueError`): warning printed, dropped. -/
  | warnInvalid : UdpAction
  /-- parsed to floats but not 8 of them: dropped with no output. -/
  | dropSilent : UdpAction
deriving DecidableEq

/-- The per-message branch structure of `UDPReceiver._receive_loop`. -/
def receiveMessage (message : List Char) : UdpAction :=
  if "ERROR".toList.isPrefixOf message ∨ "SYSTEM".toList.isPrefixOf message then
    .control
  else
    match (splitComma message).mapM pyFloat? with
    | none => .warnInvalid
    | some values => if values.length = 8 then .enqueue values else .dropSilent

/-! ### Concrete instantiations used by witnesses and counterexamples -/

/-- A concrete external-transform instantiation: one band (the
approximation only), reconstruction is the identity. -/
def Wjoin : WaveletXform :=
  { wavedec := fun sig _ => [sig]
    waverec := fun cs => cs.flatten
    sqrtTwoLog := fun _ => 1 }

/-- A concrete external-transform instantiation with one detail band. -/
def Wtwo : WaveletXform :=
  { wavedec := fun sig _ => [sig, sig]
    waverec := fun cs => cs.flatten
    sqrtTwoLog := fun _ => 1 }

/-- A small window configuration (window 4, 50 % overlap, same shape as the
shipped 500/250) for instantiating the parametric processor theorems. -/
def cfg4 : HolterConfig :=
  { WINDOW_SIZE := 4
    OVERLAP := 2
    DECOMPOSITION_LEVEL := 1
    ACC_THRESHOLD_PERCENTILE := 75
    THRESHOLD_MULTIPLIER_HIGH_MOTION := 5/2
    THRESHOLD_MULTIPLIER_LOW_MOTION := 1 }

/-- A processor state holding three buffered samples (one short of `cfg4`'s
window). -/
def st3 : ProcState :=
  { ecg_I_buffer := [10, 20, 30]
    ecg_II_buffer := [11, 21, 31]
    ecg_III_buffer := [12, 22, 32]
    acc_mag_buffer := [0, 0, 0]
    timestamp_buffer := [1, 2, 3]
    acc_threshold := none
    raw_rows := []
    filtered_rows := [] }

/-- The sample that completes `st3`'s window. -/
def d4 : Sample :=
  { timestamp := 4, ecg_I := 40, ecg_II := 41, ecg_III := 42
    acc_x := 0, acc_y := 0, acc_z := 0, acc_mag := 0 }

/-- The state after `_process_window` on `st3`'s completed window (emission
done, buffers not yet slid). -/
def stWin : ProcState :=
  { ecg_I_buffer := [10, 20, 30, 40]
    ecg_II_buffer := [11, 21, 31, 41]
    ecg_III_buffer := [12, 22, 32, 42]
    acc_mag_buffer := [0, 0, 0, 0]
    timestamp_buffer := [1, 2, 3, 4]
    acc_threshold := some 0
    raw_rows := [d4]
    filtered_rows := [(1, 10, 11, 12), (2, 20, 21, 22)] }

/-- The state after the full `process_sample` step on `st3` and `d4`
(window processed, buffers slid back to the overlap tail). -/
def st3' : ProcState :=
  { ecg_I_buffer := [30, 40]
    ecg_II_buffer := [31, 41]
    ecg_III_buffer := [32, 42]
    acc_mag_buffer := [0, 0]
    timestamp_buffer := [3, 4]
    acc_threshold := some 0
    raw_rows := [d4]
    filtered_rows := [(1, 10, 11, 12), (2, 20, 21, 22)] }

/-! ### Helper lemmas -/

lemma threshDetails_getD (cfg : HolterConfig) (tb mr : ℚ) (nc : ℕ) :
    ∀ (ds : List (List ℚ)) (i j : ℕ),
    (threshDetails cfg tb mr nc i ds).getD j [] =
      (ds.getD j []).map (pywtThresholdSoft (bandThreshold cfg tb mr nc (i + j)))
  | [], _, j => by simp [threshDetails]
  | d :: ds, i, 0 => by simp [threshDetails]
  | d :: ds, i, j + 1 => by
      have hrec := threshDetails_getD cfg tb mr nc ds (i + 1) j
      have harg : i + 1 + j = i + (j + 1) := by omega
      simpa [threshDetails, harg] using hrec

lemma threshDetails_length (cfg : HolterConfig) (tb mr : ℚ) (nc : ℕ) :
    ∀ (ds : List (List ℚ)) (i : ℕ),
    (threshDetails cfg tb mr nc i ds).length = ds.length
  | [], _ => rfl
  | d :: ds, i => by
      simp [threshDetails, threshDetails_length cfg tb mr nc ds (i + 1)]

lemma coeffsFiltered_length (cfg : HolterConfig) (tb mr : ℚ)
    (coeffs : List (List ℚ)) :
    (coeffsFiltered cfg tb mr coeffs).length = coeffs.length := by
  cases coeffs with
  | nil => rfl
  | cons c0 rest => simp [coeffsFiltered, threshDetails_length]

lemma coeffsFiltered_head? (cfg : HolterConfig) (tb mr : ℚ)
    (coeffs : List (List ℚ)) :
    (coeffsFiltered cfg tb mr coeffs).head? = coeffs.head? := by
  cases coeffs <;> rfl

lemma coeffsFiltered_getD_detail (cfg : HolterConfig) (tb mr : ℚ)
    (coeffs : List (List ℚ)) (i : ℕ) (h1 : 1 ≤ i) :
    (coeffsFiltered cfg tb mr coeffs).getD i [] =
      (coeffs.getD i []).map
        (pywtThresholdSoft (bandThreshold cfg tb mr coeffs.length i)) := by
  cases coeffs with
  | nil => simp [coeffsFiltered]
  | cons c0 rest =>
    obtain ⟨j, rfl⟩ : ∃ j, i = j + 1 := ⟨i - 1, by omega⟩
    simp only [coeffsFiltered, List.getD_cons_succ, List.length_cons]
    rw [threshDetails_getD]
    have harg : 1 + j = j + 1 := Nat.add_comm 1 j
    rw [harg]

lemma adjustLength_some_length {recon : List ℚ} {n : ℕ} {out : List ℚ}
    (h : adjustLength recon n = some out) : out.length = n := by
  by_cases h1 : n < recon.length
  · simp only [adjustLength, if_pos h1] at h
    cases h
    simp [List.length_take]
    omega
  · by_cases h2 : recon.length < n
    · cases hl : recon.getLast? with
      | none =>
          simp only [adjustLength, if_neg h1, if_pos h2, hl] at h
          exact Option.noConfusion h
      | some v =>
          simp only [adjustLength, if_neg h1, if_pos h2, hl] at h
          cases h
          simp [List.length_append, List.length_replicate]
          omega
    · simp only [adjustLength, if_neg h1, if_neg h2] at h
      cases h
      omega

lemma processWindow_some_eq {cfg : HolterConfig} {W : WaveletXform}
    {st st' : ProcState} (h : processWindow cfg W st = some st') :
    ∃ fI fII fIII,
      adaptive_wavelet_filter cfg W st.ecg_I_buffer
        (detect_motion_segments st.acc_mag_buffer (thrOf cfg st))
        cfg.DECOMPOSITION_LEVEL = some fI ∧
      adaptive_wavelet_filter cfg W st.ecg_II_buffer
        (detect_motion_segments st.acc_mag_buffer (thrOf cfg st))
        cfg.DECOMPOSITION_LEVEL = some fII ∧
      adaptive_wavelet_filter cfg W st.ecg_III_buffer
        (detect_motion_segments st.acc_mag_buffer (thrOf cfg st))
        cfg.DECOMPOSITION_LEVEL = some fIII ∧
      st' = { st with
              acc_threshold := some (thrOf cfg st)
              filtered_rows := st.filtered_rows ++
                (List.range (st.timestamp_buffer.length - cfg.OVERLAP)).map fun i =>
                  (st.timestamp_buffer.getD i 0, fI.getD i 0,
                    fII.getD i 0, fIII.getD i 0) } := by
  unfold processWindow at h
  cases hI : adaptive_wavelet_filter cfg W st.ecg_I_buffer
      (detect_motion_segments st.acc_mag_buffer (thrOf cfg st))
      cfg.DECOMPOSITION_LEVEL with
  | none => simp [hI] at h
  | some fI =>
    cases hII : adaptive_wavelet_filter cfg W st.ecg_II_buffer
        (detect_motion_segments st.acc_mag_buffer (thrOf cfg st))
        cfg.DECOMPOSITION_LEVEL with
    | none => simp [hI, hII] at h
    | some fII =>
      cases hIII : adaptive_wavelet_filter cfg W st.ecg_III_buffer
          (detect_motion_segments st.acc_mag_buffer (thrOf cfg st))
          cfg.DECOMPOSITION_LEVEL with
      | none => simp [hI, hII, hIII] at h
      | some fIII =>
        simp only [hI, hII, hIII, Option.some.injEq] at h
        exact ⟨fI, fII, fIII, rfl, rfl, rfl, h.symm⟩

lemma adaptive_filter_some_length {cfg : HolterConfig} {W : WaveletXform}
    {sig : List ℚ} {mask : List Bool} {level : ℕ} {out : List ℚ}
    (h : adaptive_wavelet_filter cfg W sig mask level = some out) :
    out.length = sig.length := by
  unfold adaptive_wavelet_filter at h
  by_cases hw : W.wavedec sig level = []
  · rw [if_pos hw] at h
    exact Option.noConfusion h
  · rw [if_neg hw] at h
    exact adjustLength_some_length h

lemma pySliceLast_length (k : ℕ) (l : List ℚ) (hk : 0 < k) :
    (pySliceLast k l).length = min k l.length := by
  unfold pySliceLast
  rw [if_neg (by omega)]
  simp [List.length_drop]
  omega

lemma pySliceLast_length_eq (k : ℕ) (l₁ l₂ : List ℚ)
    (h : l₁.length = l₂.length) :
    (pySliceLast k l₁).length = (pySliceLast k l₂).length := by
  unfold pySliceLast
  split_ifs <;> simp [List.length_drop, h]

/-- Runs started from `initState` keep every buffer strictly below
`WINDOW_SIZE` between steps (slide leaves `OVERLAP < WINDOW_SIZE` entries),
so a window triggers exactly when the buffer *reaches* `WINDOW_SIZE`:
the `hfill` hypothesis of the C2 theorem holds in every reachable state. -/
lemma processSample_preserves_window_bound
    (cfg : HolterConfig) (W : WaveletXform) (st : ProcState) (d : Sample)
    (st' : ProcState)
    (hov : 0 < cfg.OVERLAP) (hlt : cfg.OVERLAP < cfg.WINDOW_SIZE)
    (h : processSample cfg W st d = some st') :
    st'.ecg_I_buffer.length < cfg.WINDOW_SIZE := by
  unfold processSample at h
  by_cases htrig : cfg.WINDOW_SIZE ≤ (appendSample st d).ecg_I_buffer.length
  · rw [if_pos htrig] at h
    obtain ⟨st2, hpw, hst'⟩ := Option.map_eq_some'.mp h
    obtain ⟨fI, fII, fIII, hI, hII, hIII, hst2⟩ := processWindow_some_eq hpw
    subst hst2
    subst hst'
    show (pySliceLast cfg.OVERLAP (appendSample st d).ecg_I_buffer).length <
      cfg.WINDOW_SIZE
    rw [pySliceLast_length _ _ hov]
    omega
  · rw [if_neg htrig] at h
    cases Option.some.inj h
    simp [appendSample] at htrig ⊢
    omega

lemma filterI_st4_eq :
    adaptive_wavelet_filter cfg4 Wjoin (appendSample st3 d4).ecg_I_buffer
      (detect_motion_segments (appendSample st3 d4).acc_mag_buffer
        (thrOf cfg4 (appendSample st3 d4)))
      cfg4.DECOMPOSITION_LEVEL = some [10, 20, 30, 40] := by
  norm_num [adaptive_wavelet_filter, reconOf, filterCoeffs, coeffsFiltered,
    threshDetails, thresholdBase, sigmaMAD, npMedian, npMeanBool, adjustLength,
    detect_motion_segments, thrOf, npPercentile, List.insertionSort,
    List.orderedInsert, appendSample, st3, d4, cfg4, Wjoin]

lemma filterII_st4_eq :
    adaptive_wavelet_filter cfg4 Wjoin (appendSample st3 d4).ecg_II_buffer
      (detect_motion_segments (appendSample st3 d4).acc_mag_buffer
        (thrOf cfg4 (appendSample st3 d4)))
      cfg4.DECOMPOSITION_LEVEL = some [11, 21, 31, 41] := by
  norm_num [adaptive_wavelet_filter, reconOf, filterCoeffs, coeffsFiltered,
    threshDetails, thresholdBase, sigmaMAD, npMedian, npMeanBool, adjustLength,
    detect_motion_segments, thrOf, npPercentile, List.insertionSort,
    List.orderedInsert, appendSample, st3, d4, cfg4, Wjoin]

lemma filterIII_st4_eq :
    adaptive_wavelet_filter cfg4 Wjoin (appendSample st3 d4).ecg_III_buffer
      (detect_motion_segments (appendSample st3 d4).acc_mag_buffer
        (thrOf cfg4 (appendSample st3 d4)))
      cfg4.DECOMPOSITION_LEVEL = some [12, 22, 32, 42] := by
  norm_num [adaptive_wavelet_filter, reconOf, filterCoeffs, coeffsFiltered,
    threshDetails, thresholdBase, sigmaMAD, npMedian, npMeanBool, adjustLength,
    detect_motion_segments, thrOf, npPercentile, List.insertionSort,
    List.orderedInsert, appendSample, st3, d4, cfg4, Wjoin]

lemma processWindow_st4_eq :
    processWindow cfg4 Wjoin (appendSample st3 d4) = some stWin := by
  norm_num [processWindow, appendSample, processWindow, thrOf, npPercentile,
    List.insertionSort, List.orderedInsert, detect_motion_segments,
    adaptive_wavelet_filter, reconOf, filterCoeffs, coeffsFiltered,
    threshDetails, thresholdBase, sigmaMAD, npMedian, npMeanBool, adjustLength,
    cfg4, st3, d4, stWin, Wjoin]
  simp [List.range_succ]

lemma processSample_st3_eq :
    processSample cfg4 Wjoin st3 d4 = some st3' := by
  norm_num [processSample, appendSample, processWindow, thrOf, npPercentile,
    List.insertionSort, List.orderedInsert, detect_motion_segments,
    adaptive_wavelet_filter, reconOf, filterCoeffs, coeffsFiltered,
    threshDetails, thresholdBase, sigmaMAD, npMedian, npMeanBool, adjustLength,
    slideState, pySliceLast, cfg4, st3, d4, st3', Wjoin]
  simp [List.range_succ]

/-! ### Claim C3: exact output length of the wavelet filter -/

/-- C3: for every input signal, motion mask and decomposition level, whenever
`adaptive_wavelet_filter` returns (no Python exception), the returned signal
has exactly the input's length; a longer reconstruction was truncated to the
first `N` samples, a shorter one padded by replicating its last value, and an
equal-length one passed through unchanged. -/
theorem claim_C3_length_reconciliation
    (cfg : HolterConfig) (W : WaveletXform) (sig : List ℚ) (mask : List Bool)
    (level : ℕ) (out : List ℚ)
    (h : adaptive_wavelet_filter cfg W sig mask level = some out) :
    out.length = sig.length ∧
    (sig.length < (reconOf cfg W sig mask level).length →
      out = (reconOf cfg W sig mask level).take sig.length) ∧
    ((reconOf cfg W sig mask level).length < sig.length →
      ∃ v, (reconOf cfg W sig mask level).getLast? = some v ∧
        out = reconOf cfg W sig mask level ++
          List.replicate (sig.length - (reconOf cfg W sig mask level).length) v) ∧
    ((reconOf cfg W sig mask level).length = sig.length →
      out = reconOf cfg W sig mask level) := by
  unfold adaptive_wavelet_filter at h
  by_cases hw : W.wavedec sig level = []
  · rw [if_pos hw] at h
    exact Option.noConfusion h
  · rw [if_neg hw] at h
    refine ⟨adjustLength_some_length h, ?_, ?_, ?_⟩
    · intro hlt
      simp only [adjustLength, if_pos hlt] at h
      exact (Option.some.inj h).symm
    · intro hlt
      have h1 : ¬ sig.length < (reconOf cfg W sig mask level).length := by omega
      cases hl : (reconOf cfg W sig mask level).getLast? with
      | none =>
          simp only [adjustLength, if_neg h1, if_pos hlt, hl] at h
          exact Option.noConfusion h
      | some v =>
          simp only [adjustLength, if_neg h1, if_pos hlt, hl] at h
          exact ⟨v, rfl, (Option.some.inj h).symm⟩
    · intro heq
      have h1 : ¬ sig.length < (reconOf cfg W sig mask level).length := by omega
      have h2 : ¬ (reconOf cfg W sig mask level).length < sig.length := by omega
      simp only [adjustLength, if_neg h1, if_neg h2] at h
      exact (Option.some.inj h).symm

theorem claim_C3_witness :
    adaptive_wavelet_filter holterConfig Wjoin [0, 1, 2] [false] 5 =
      some [0, 1, 2] ∧
    ([0, 1, 2] : List ℚ).length = ([0, 1, 2] : List ℚ).length :=
  ⟨rfl,
    (claim_C3_length_reconciliation holterConfig Wjoin [0, 1, 2] [false] 5
      [0, 1, 2] rfl).1⟩

/-! ### Claim C6: the per-band threshold formula -/

/-- C6: when the decomposition has `L + 1` bands (as `pywt.wavedec` with
level `L` produces), every detail band `i ∈ [1, L]` (1 = coarsest, `L` =
finest, in decomposition order) is soft-thresholded with
`T0 * multiplier * 1.5 ^ (L + 1 - i)`, where `T0` is the MAD-based universal
base threshold and the multiplier is `THRESHOLD_MULTIPLIER_HIGH_MOTION`
exactly when `mean(motion_mask) > 0.3`, else
`THRESHOLD_MULTIPLIER_LOW_MOTION`. -/
theorem claim_C6_threshold_formula
    (cfg : HolterConfig) (W : WaveletXform) (sig : List ℚ) (mask : List Bool)
    (level i : ℕ)
    (hlen : (W.wavedec sig level).length = level + 1)
    (h1 : 1 ≤ i) (hiL : i ≤ level) :
    (filterCoeffs cfg W sig mask level).getD i [] =
      ((W.wavedec sig level).getD i []).map
        (pywtThresholdSoft
          (thresholdBase W sig.length (W.wavedec sig level) *
            (if npMeanBool mask > 3/10 then cfg.THRESHOLD_MULTIPLIER_HIGH_MOTION
             else cfg.THRESHOLD_MULTIPLIER_LOW_MOTION) *
            (3/2) ^ (level + 1 - i))) := by
  unfold filterCoeffs
  rw [coeffsFiltered_getD_detail cfg _ _ _ i h1, hlen]
  have hband : bandThreshold cfg
      (thresholdBase W sig.length (W.wavedec sig level)) (npMeanBool mask)
      (level + 1) i =
      thresholdBase W sig.length (W.wavedec sig level) *
        (if npMeanBool mask > 3/10 then cfg.THRESHOLD_MULTIPLIER_HIGH_MOTION
         else cfg.THRESHOLD_MULTIPLIER_LOW_MOTION) *
        (3/2) ^ (level + 1 - i) := by
    unfold bandThreshold
    split_ifs <;> rfl
  rw [hband]

theorem claim_C6_witness :
    (Wtwo.wavedec [0] 1).length = 1 + 1 ∧ 1 ≤ 1 ∧ 1 ≤ 1 ∧
    (filterCoeffs holterConfig Wtwo [0] [] 1).getD 1 [] =
      ((Wtwo.wavedec [0] 1).getD 1 []).map
        (pywtThresholdSoft
          (thresholdBase Wtwo ([0] : List ℚ).length (Wtwo.wavedec [0] 1) *
            (if npMeanBool [] > 3/10 then
              holterConfig.THRESHOLD_MULTIPLIER_HIGH_MOTION
             else holterConfig.THRESHOLD_MULTIPLIER_LOW_MOTION) *
            (3/2) ^ (1 + 1 - 1))) :=
  ⟨rfl, le_refl 1, le_refl 1,
    claim_C6_threshold_formula holterConfig Wtwo [0] [] 1 1 rfl
      (le_refl 1) (le_refl 1)⟩

/-! ### Claim C7: motion multiplier monotonicity (corrected) -/

/-- C7 counterexample: on the all-zero signal the MAD base threshold is `0`,
so with the shipped multipliers (2.5 > 1.0) the per-band threshold with a
motion mean of 1 (all-motion mask) is *not* strictly greater than with a
motion mean of 0 (no-motion mask): both are `0`.  This refutes the claim's
universal strict inequality. -/
theorem claim_C7_counterexample :
    ¬ (bandThreshold holterConfig
          (thresholdBase Wjoin ([0, 0, 0, 0] : List ℚ).length
            (Wjoin.wavedec [0, 0, 0, 0] 5))
          (npMeanBool [true, true, true, true]) 6 1 >
        bandThreshold holterConfig
          (thresholdBase Wjoin ([0, 0, 0, 0] : List ℚ).length
            (Wjoin.wavedec [0, 0, 0, 0] 5))
          (npMeanBool [false, false, false, false]) 6 1) := by
  norm_num [bandThreshold, thresholdBase, sigmaMAD, npMedian, npMeanBool,
    Wjoin, holterConfig, List.insertionSort, List.orderedInsert]

/-- C7 amended: with the signal (hence the base threshold `tb`) held fixed
and only the motion mean varying across the `0.3` boundary, and
`THRESHOLD_MULTIPLIER_LOW_MOTION < THRESHOLD_MULTIPLIER_HIGH_MOTION`, the
high-motion per-band threshold is strictly greater than the low-motion one
whenever `tb > 0`; when `tb = 0` (e.g. an all-zero signal) the two
thresholds coincide. -/
theorem claim_C7_amended
    (cfg : HolterConfig) (tb r1 r0 : ℚ) (nc i : ℕ)
    (h1 : r1 > 3/10) (h0 : ¬(r0 > 3/10))
    (hm : cfg.THRESHOLD_MULTIPLIER_LOW_MOTION <
      cfg.THRESHOLD_MULTIPLIER_HIGH_MOTION) :
    (0 < tb → bandThreshold cfg tb r0 nc i < bandThreshold cfg tb r1 nc i) ∧
    (tb = 0 → bandThreshold cfg tb r0 nc i = bandThreshold cfg tb r1 nc i) := by
  unfold bandThreshold
  rw [if_pos h1, if_neg h0]
  constructor
  · intro htb
    have hp : (0 : ℚ) < (3/2) ^ (nc - i) := by positivity
    exact mul_lt_mul_of_pos_right (mul_lt_mul_of_pos_left hm htb) hp
  · intro h
    subst h
    ring

theorem claim_C7_witness :
    ((1 : ℚ) > 3/10) ∧ ¬((0 : ℚ) > 3/10) ∧
    holterConfig.THRESHOLD_MULTIPLIER_LOW_MOTION <
      holterConfig.THRESHOLD_MULTIPLIER_HIGH_MOTION ∧
    ((0 < (1 : ℚ) →
        bandThreshold holterConfig 1 0 6 1 < bandThreshold holterConfig 1 1 6 1) ∧
      ((1 : ℚ) = 0 →
        bandThreshold holterConfig 1 0 6 1 = bandThreshold holterConfig 1 1 6 1)) :=
  ⟨by norm_num, by norm_num, by norm_num [holterConfig],
    claim_C7_amended holterConfig 1 1 0 6 1 (by norm_num) (by norm_num)
      (by norm_num [holterConfig])⟩

/-! ### Claim C8: the approximation band is never thresholded -/

/-- C8: for every signal, mask and level, the coefficient set that
`adaptive_wavelet_filter` hands to reconstruction keeps the decomposition's
approximation band (index 0) bit-identical, and every further band (the
details) is exactly the soft-thresholded image of the corresponding
decomposition band — thresholding touches only detail bands. -/
theorem claim_C8_approx_passthrough
    (cfg : HolterConfig) (W : WaveletXform) (sig : List ℚ) (mask : List Bool)
    (level : ℕ) :
    (filterCoeffs cfg W sig mask level).head? = (W.wavedec sig level).head? ∧
    ∀ j : ℕ,
      (filterCoeffs cfg W sig mask level).getD (j + 1) [] =
        ((W.wavedec sig level).getD (j + 1) []).map
          (pywtThresholdSoft
            (bandThreshold cfg
              (thresholdBase W sig.length (W.wavedec sig level))
              (npMeanBool mask) (W.wavedec sig level).length (j + 1))) := by
  unfold filterCoeffs
  exact ⟨coeffsFiltered_head? cfg _ _ _,
    fun j => coeffsFiltered_getD_detail cfg _ _ _ (j + 1) (by omega)⟩

/-! ### Claim C1: which window entries are emitted (corrected) -/

/-- C1 counterexample: on a concrete completed window with timestamps
`[1, 2, 3, 4]` (window 4, overlap 2, identity reconstruction) the orchestrator
emits the rows at indices 0 and 1 — `(1, 10, 11, 12), (2, 20, 21, 22)` —
and *not* the pairing of the last `N - OVERLAP` entries
`(3, 30, 31, 32), (4, 40, 41, 42)` that the claim describes. -/
theorem claim_C1_counterexample :
    (processWindow cfg4 Wjoin (appendSample st3 d4)).map ProcState.filtered_rows =
      some [(1, 10, 11, 12), (2, 20, 21, 22)] ∧
    (processWindow cfg4 Wjoin (appendSample st3 d4)).map ProcState.filtered_rows ≠
      some [(3, 30, 31, 32), (4, 40, 41, 42)] := by
  have h : (processWindow cfg4 Wjoin (appendSample st3 d4)).map ProcState.filtered_rows =
      some [(1, 10, 11, 12), (2, 20, 21, 22)] := by
    rw [processWindow_st4_eq]
    rfl
  refine ⟨h, ?_⟩
  intro hc
  rw [h] at hc
  simp only [Option.some.injEq, List.cons.injEq, Prod.mk.injEq] at hc
  exact absurd hc.1.1 (by norm_num)

/-- C1 amended: for every completed window, `_process_window` appends to the
filtered sink — in buffer (hence timestamp) order, and before any buffer
slides (the emitting step leaves all buffers untouched) — exactly the
*first* `len(timestamps) - OVERLAP` entries of each filtered channel, each
paired with the timestamp at the same leading index. -/
theorem claim_C1_amended_first_entries
    (cfg : HolterConfig) (W : WaveletXform) (st st' : ProcState)
    (fI fII fIII : List ℚ)
    (h : processWindow cfg W st = some st')
    (hI : adaptive_wavelet_filter cfg W st.ecg_I_buffer
      (detect_motion_segments st.acc_mag_buffer (thrOf cfg st))
      cfg.DECOMPOSITION_LEVEL = some fI)
    (hII : adaptive_wavelet_filter cfg W st.ecg_II_buffer
      (detect_motion_segments st.acc_mag_buffer (thrOf cfg st))
      cfg.DECOMPOSITION_LEVEL = some fII)
    (hIII : adaptive_wavelet_filter cfg W st.ecg_III_buffer
      (detect_motion_segments st.acc_mag_buffer (thrOf cfg st))
      cfg.DECOMPOSITION_LEVEL = some fIII) :
    fI.length = st.ecg_I_buffer.length ∧
    fII.length = st.ecg_II_buffer.length ∧
    fIII.length = st.ecg_III_buffer.length ∧
    st'.filtered_rows = st.filtered_rows ++
      (List.range (st.timestamp_buffer.length - cfg.OVERLAP)).map (fun i =>
        (st.timestamp_buffer.getD i 0, fI.getD i 0, fII.getD i 0, fIII.getD i 0)) ∧
    st'.timestamp_buffer = st.timestamp_buffer ∧
    st'.ecg_I_buffer = st.ecg_I_buffer ∧
    st'.ecg_II_buffer = st.ecg_II_buffer ∧
    st'.ecg_III_buffer = st.ecg_III_buffer ∧
    st'.acc_mag_buffer = st.acc_mag_buffer := by
  obtain ⟨gI, gII, gIII, hgI, hgII, hgIII, hst⟩ := processWindow_some_eq h
  rw [hI] at hgI
  rw [hII] at hgII
  rw [hIII] at hgIII
  cases Option.some.inj hgI
  cases Option.some.inj hgII
  cases Option.some.inj hgIII
  subst hst
  exact ⟨adaptive_filter_some_length hI, adaptive_filter_some_length hII,
    adaptive_filter_some_length hIII, rfl, rfl, rfl, rfl, rfl, rfl⟩

theorem claim_C1_witness :
    processWindow cfg4 Wjoin (appendSample st3 d4) = some stWin ∧
    stWin.filtered_rows = (appendSample st3 d4).filtered_rows ++
      (List.range ((appendSample st3 d4).timestamp_buffer.length - cfg4.OVERLAP)).map
        (fun i => ((appendSample st3 d4).timestamp_buffer.getD i 0,
          ([10, 20, 30, 40] : List ℚ).getD i 0,
          ([11, 21, 31, 41] : List ℚ).getD i 0,
          ([12, 22, 32, 42] : List ℚ).getD i 0)) :=
  ⟨processWindow_st4_eq,
    (claim_C1_amended_first_entries cfg4 Wjoin (appendSample st3 d4) stWin
      [10, 20, 30, 40] [11, 21, 31, 41] [12, 22, 32, 42]
      processWindow_st4_eq filterI_st4_eq filterII_st4_eq filterIII_st4_eq).2.2.2.1⟩

/-! ### Claim C2: emitted record count per completed window -/

/-- C2: whenever a sample completes a window (the buffer length reaches
`WINDOW_SIZE` exactly, as it does on every trigger in a run started from the
empty state) and the window is processed without exception, exactly
`WINDOW_SIZE - OVERLAP` new rows are appended to the filtered sink. -/
theorem claim_C2_window_emission_count
    (cfg : HolterConfig) (W : WaveletXform) (st : ProcState) (d : Sample)
    (st' : ProcState)
    (hsync : BuffersSync st)
    (hfill : st.ecg_I_buffer.length + 1 = cfg.WINDOW_SIZE)
    (hov : cfg.OVERLAP ≤ cfg.WINDOW_SIZE)
    (h : processSample cfg W st d = some st') :
    st'.filtered_rows.length =
      st.filtered_rows.length + (cfg.WINDOW_SIZE - cfg.OVERLAP) := by
  obtain ⟨e1, e2, e3, e4⟩ := hsync
  have htrig : cfg.WINDOW_SIZE ≤ (appendSample st d).ecg_I_buffer.length := by
    simp [appendSample]
    omega
  unfold processSample at h
  rw [if_pos htrig] at h
  obtain ⟨st2, hpw, hst'⟩ := Option.map_eq_some'.mp h
  obtain ⟨fI, fII, fIII, hI, hII, hIII, hst2⟩ := processWindow_some_eq hpw
  subst hst2
  subst hst'
  simp [slideState, appendSample, List.length_append, List.length_map,
    List.length_range]
  omega

theorem claim_C2_witness :
    BuffersSync st3 ∧
    st3.ecg_I_buffer.length + 1 = cfg4.WINDOW_SIZE ∧
    cfg4.OVERLAP ≤ cfg4.WINDOW_SIZE ∧
    processSample cfg4 Wjoin st3 d4 = some st3' ∧
    st3'.filtered_rows.length =
      st3.filtered_rows.length + (cfg4.WINDOW_SIZE - cfg4.OVERLAP) :=
  ⟨by decide, by decide, by decide, processSample_st3_eq,
    claim_C2_window_emission_count cfg4 Wjoin st3 d4 st3'
      (by decide) (by decide) (by decide) processSample_st3_eq⟩

/-! ### Claim C4: buffer length synchronization invariant -/

/-- C4: appending adds exactly one entry to each of the five buffers and
preserves length synchronization; with a positive `OVERLAP` (the shipped
value is 250) sliding leaves every buffer with `min(OVERLAP, previous
length)` entries; and the whole `process_sample` step preserves the
synchronization invariant. -/
theorem claim_C4_buffer_sync_invariant
    (cfg : HolterConfig) (W : WaveletXform) (st : ProcState) (d : Sample)
    (st' : ProcState) :
    (BuffersSync st → BuffersSync (appendSample st d)) ∧
    ((appendSample st d).timestamp_buffer.length = st.timestamp_buffer.length + 1 ∧
      (appendSample st d).ecg_I_buffer.length = st.ecg_I_buffer.length + 1 ∧
      (appendSample st d).ecg_II_buffer.length = st.ecg_II_buffer.length + 1 ∧
      (appendSample st d).ecg_III_buffer.length = st.ecg_III_buffer.length + 1 ∧
      (appendSample st d).acc_mag_buffer.length = st.acc_mag_buffer.length + 1) ∧
    (0 < cfg.OVERLAP →
      (slideState cfg st).timestamp_buffer.length =
        min cfg.OVERLAP st.timestamp_buffer.length ∧
      (slideState cfg st).ecg_I_buffer.length =
        min cfg.OVERLAP st.ecg_I_buffer.length ∧
      (slideState cfg st).ecg_II_buffer.length =
        min cfg.OVERLAP st.ecg_II_buffer.length ∧
      (slideState cfg st).ecg_III_buffer.length =
        min cfg.OVERLAP st.ecg_III_buffer.length ∧
      (slideState cfg st).acc_mag_buffer.length =
        min cfg.OVERLAP st.acc_mag_buffer.length) ∧
    (BuffersSync st → processSample cfg W st d = some st' → BuffersSync st') := by
  refine ⟨?_, ?_, ?_, ?_⟩
  · intro hs
    obtain ⟨e1, e2, e3, e4⟩ := hs
    simp [appendSample, BuffersSync, e1, e2, e3, e4]
  · simp [appendSample]
  · intro hk
    exact ⟨pySliceLast_length _ _ hk, pySliceLast_length _ _ hk,
      pySliceLast_length _ _ hk, pySliceLast_length _ _ hk,
      pySliceLast_length _ _ hk⟩
  · intro hs h
    obtain ⟨e1, e2, e3, e4⟩ := hs
    unfold processSample at h
    by_cases htrig : cfg.WINDOW_SIZE ≤ (appendSample st d).ecg_I_buffer.length
    · rw [if_pos htrig] at h
      obtain ⟨st2, hpw, hst'⟩ := Option.map_eq_some'.mp h
      obtain ⟨fI, fII, fIII, hI, hII, hIII, hst2⟩ := processWindow_some_eq hpw
      subst hst2
      subst hst'
      refine ⟨?_, ?_, ?_, ?_⟩ <;>
        · simp only [slideState, BuffersSync, appendSample]
          apply pySliceLast_length_eq
          simp [e1, e2, e3, e4]
    · rw [if_neg htrig] at h
      cases Option.some.inj h
      simp [BuffersSync, appendSample, e1, e2, e3, e4]

theorem claim_C4_witness :
    BuffersSync st3 ∧ 0 < cfg4.OVERLAP ∧
    processSample cfg4 Wjoin st3 d4 = some st3' ∧
    BuffersSync (appendSample st3 d4) ∧
    (slideState cfg4 st3).timestamp_buffer.length =
      min cfg4.OVERLAP st3.timestamp_buffer.length ∧
    BuffersSync st3' :=
  ⟨by decide, by decide, processSample_st3_eq,
    (claim_C4_buffer_sync_invariant cfg4 Wjoin st3 d4 st3').1 (by decide),
    ((claim_C4_buffer_sync_invariant cfg4 Wjoin st3 d4 st3').2.2.1 (by decide)).1,
    (claim_C4_buffer_sync_invariant cfg4 Wjoin st3 d4 st3').2.2.2
      (by decide) processSample_st3_eq⟩

/-! ### Claim C5: the motion threshold is calibrated once -/

/-- C5: a `process_sample` step never changes an already-calibrated motion
threshold (any later window reuses it bit-for-bit); on the first completed
window (`acc_threshold is None` and the buffer reaches `WINDOW_SIZE`) it is
set to the `ACC_THRESHOLD_PERCENTILE`-th percentile of exactly that window's
acceleration magnitudes; and a non-window step leaves it uncalibrated. -/
theorem claim_C5_threshold_calibrated_once
    (cfg : HolterConfig) (W : WaveletXform) (st : ProcState) (d : Sample)
    (st' : ProcState) (t : ℚ) :
    (processSample cfg W st d = some st' → st.acc_threshold = some t →
      st'.acc_threshold = some t) ∧
    (processSample cfg W st d = some st' → st.acc_threshold = none →
      cfg.WINDOW_SIZE ≤ st.ecg_I_buffer.length + 1 →
      st'.acc_threshold = some (npPercentile cfg.ACC_THRESHOLD_PERCENTILE
        (st.acc_mag_buffer ++ [d.acc_mag]))) ∧
    (processSample cfg W st d = some st' → st.acc_threshold = none →
      st.ecg_I_buffer.length + 1 < cfg.WINDOW_SIZE →
      st'.acc_threshold = none) := by
  refine ⟨?_, ?_, ?_⟩
  · intro h ht
    unfold processSample at h
    by_cases htrig : cfg.WINDOW_SIZE ≤ (appendSample st d).ecg_I_buffer.length
    · rw [if_pos htrig] at h
      obtain ⟨st2, hpw, hst'⟩ := Option.map_eq_some'.mp h
      obtain ⟨fI, fII, fIII, hI, hII, hIII, hst2⟩ := processWindow_some_eq hpw
      subst hst2
      subst hst'
      simp [slideState, thrOf, appendSample, ht]
    · rw [if_neg htrig] at h
      cases Option.some.inj h
      simp [appendSample, ht]
  · intro h ht hfull
    have htrig : cfg.WINDOW_SIZE ≤ (appendSample st d).ecg_I_buffer.length := by
      simp [appendSample]
      omega
    unfold processSample at h
    rw [if_pos htrig] at h
    obtain ⟨st2, hpw, hst'⟩ := Option.map_eq_some'.mp h
    obtain ⟨fI, fII, fIII, hI, hII, hIII, hst2⟩ := processWindow_some_eq hpw
    subst hst2
    subst hst'
    simp [slideState, thrOf, appendSample, ht]
  · intro h ht hlt
    have htrig : ¬ cfg.WINDOW_SIZE ≤ (appendSample st d).ecg_I_buffer.length := by
      simp [appendSample]
      omega
    unfold processSample at h
    rw [if_neg htrig] at h
    cases Option.some.inj h
    simp [appendSample, ht]

theorem claim_C5_witness :
    processSample cfg4 Wjoin st3 d4 = some st3' ∧
    st3.acc_threshold = none ∧
    cfg4.WINDOW_SIZE ≤ st3.ecg_I_buffer.length + 1 ∧
    st3'.acc_threshold = some (npPercentile cfg4.ACC_THRESHOLD_PERCENTILE
      (st3.acc_mag_buffer ++ [d4.acc_mag])) :=
  ⟨processSample_st3_eq, rfl, by decide,
    (claim_C5_threshold_calibrated_once cfg4 Wjoin st3 d4 st3' 0).2.1
      processSample_st3_eq rfl (by decide)⟩

/-! ### Claim C9: ingestion filtering (corrected) -/

/-- C9 counterexample: the message `"1,2,3"` parses to three floats without a
`ValueError`, so the receive loop drops it *silently* (no warning is
printed); the claim's "dropped with a warning" describes the wrong branch. -/
theorem claim_C9_counterexample :
    receiveMessage "1,2,3".toList = UdpAction.dropSilent ∧
    UdpAction.dropSilent ≠ UdpAction.warnInvalid := by
  exact ⟨rfl, by decide⟩

/-- C9 amended: a message is enqueued iff it does not begin with `ERROR` or
`SYSTEM` and parses to exactly 8 floats; `ERROR`/`SYSTEM` messages are
treated as control text; a message with a field that fails float conversion
is dropped *with* a warning; and a message that parses to floats but not
exactly 8 of them is dropped silently (no warning).  In every non-enqueue
case nothing reaches the queue. -/
theorem claim_C9_amended (msg : List Char) (vs : List ℚ) :
    (receiveMessage msg = .enqueue vs ↔
      (¬("ERROR".toList.isPrefixOf msg ∨ "SYSTEM".toList.isPrefixOf msg) ∧
        (splitComma msg).mapM pyFloat? = some vs ∧ vs.length = 8)) ∧
    (("ERROR".toList.isPrefixOf msg ∨ "SYSTEM".toList.isPrefixOf msg) →
      receiveMessage msg = .control) ∧
    (¬("ERROR".toList.isPrefixOf msg ∨ "SYSTEM".toList.isPrefixOf msg) →
      (splitComma msg).mapM pyFloat? = none →
      receiveMessage msg = .warnInvalid) ∧
    (¬("ERROR".toList.isPrefixOf msg ∨ "SYSTEM".toList.isPrefixOf msg) →
      (splitComma msg).mapM pyFloat? = some vs → vs.length ≠ 8 →
      receiveMessage msg = .dropSilent) := by
  have hr : receiveMessage msg =
      (if "ERROR".toList.isPrefixOf msg ∨ "SYSTEM".toList.isPrefixOf msg then
        UdpAction.control
      else
        match (splitComma msg).mapM pyFloat? with
        | none => UdpAction.warnInvalid
        | some values =>
            if values.length = 8 then UdpAction.enqueue values
            else UdpAction.dropSilent) := rfl
  by_cases hp : ("ERROR".toList.isPrefixOf msg ∨ "SYSTEM".toList.isPrefixOf msg)
  · refine ⟨?_, fun _ => by rw [hr, if_pos hp],
      fun hnp => absurd hp hnp, fun hnp => absurd hp hnp⟩
    constructor
    · intro h
      rw [hr, if_pos hp] at h
      exact UdpAction.noConfusion h
    · rintro ⟨hnp, -, -⟩
      exact absurd hp hnp
  · rw [hr, if_neg hp]
    cases hm : (splitComma msg).mapM pyFloat? with
    | none =>
        refine ⟨?_, fun hp2 => absurd hp2 hp, fun _ _ => rfl, ?_⟩
        · constructor
          · intro h
            exact UdpAction.noConfusion h
          · rintro ⟨-, hsome, -⟩
            exact Option.noConfusion hsome
        · intro _ hsome _
          exact Option.noConfusion hsome
    | some ws =>
        by_cases hlen : ws.length = 8
        · refine ⟨?_, fun hp2 => absurd hp2 hp, ?_, ?_⟩
          · constructor
            · intro h
              replace h : (if ws.length = 8 then UdpAction.enqueue ws
                  else UdpAction.dropSilent) = UdpAction.enqueue vs := h
              rw [if_pos hlen] at h
              cases UdpAction.enqueue.inj h
              exact ⟨hp, rfl, hlen⟩
            · rintro ⟨-, hsome, -⟩
              cases Option.some.inj hsome
              show (if vs.length = 8 then UdpAction.enqueue vs
                else UdpAction.dropSilent) = UdpAction.enqueue vs
              rw [if_pos hlen]
          · intro _ hnone
            exact Option.noConfusion hnone
          · intro _ hsome hlen8
            cases Option.some.inj hsome
            exact absurd hlen hlen8
        · refine ⟨?_, fun hp2 => absurd hp2 hp, ?_, ?_⟩
          · constructor
            · intro h
              replace h : (if ws.length = 8 then UdpAction.enqueue ws
                  else UdpAction.dropSilent) = UdpAction.enqueue vs := h
              rw [if_neg hlen] at h
              exact UdpAction.noConfusion h
            · rintro ⟨-, hsome, hlen8⟩
              cases Option.some.inj hsome
              exact absurd hlen8 hlen
          · intro _ hnone
            exact Option.noConfusion hnone
          · intro _ hsome _
            cases Option.some.inj hsome
            show (if vs.length = 8 then UdpAction.enqueue vs
              else UdpAction.dropSilent) = UdpAction.dropSilent
            rw [if_neg hlen]

theorem claim_C9_witness :
    ("ERROR".toList.isPrefixOf "ERROR,disconnect".toList ∨
      "SYSTEM".toList.isPrefixOf "ERROR,disconnect".toList) ∧
    receiveMessage "ERROR,disconnect".toList = UdpAction.control :=
  ⟨by decide, (claim_C9_amended "ERROR,disconnect".toList []).2.1 (by decide)⟩

/-! ### Claim C10: the first window always takes the low-motion branch -/

lemma countP_gt_le_of_sorted (s : List ℚ) (hs : s.Sorted (· ≤ ·)) (k : ℕ)
    (hk : k < s.length) (c : ℚ) (hc : s.get ⟨k, hk⟩ ≤ c) :
    s.countP (fun x => decide (c < x)) ≤ s.length - (k + 1) := by
  have h1 : (s.take (k + 1)).countP (fun x => decide (c < x)) = 0 := by
    rw [List.countP_eq_zero]
    intro x hx
    obtain ⟨i, hi, hxi⟩ := List.mem_iff_getElem.mp hx
    have hik : i < k + 1 := by
      have := hi
      simp [List.length_take] at this
      omega
    have hi' : i < s.length := by omega
    have hix : x = s.get ⟨i, hi'⟩ := by
      rw [← hxi, List.getElem_take]
      rfl
    have hle : s.get ⟨i, hi'⟩ ≤ s.get ⟨k, hk⟩ := by
      rcases Nat.lt_or_ge i k with hlt | hge
      · exact hs.rel_get_of_lt hlt
      · have : i = k := by omega
        subst this
        exact le_refl _
    simp only [decide_eq_true_eq]
    push_neg
    exact hix ▸ (hle.trans hc)
  calc s.countP (fun x => decide (c < x))
      = (s.take (k + 1) ++ s.drop (k + 1)).countP (fun x => decide (c < x)) := by
        rw [List.take_append_drop]
    _ = (s.take (k + 1)).countP (fun x => decide (c < x)) +
          (s.drop (k + 1)).countP (fun x => decide (c < x)) :=
        List.countP_append _ _ _
    _ = (s.drop (k + 1)).countP (fun x => decide (c < x)) := by rw [h1]; omega
    _ ≤ (s.drop (k + 1)).length := List.countP_le_length _
    _ = s.length - (k + 1) := List.length_drop _ _

lemma percentile75_mask_mean_le (xs : List ℚ) (m : ℕ) (hm : 1 ≤ m)
    (hlen : xs.length = 4 * m) :
    npMeanBool (detect_motion_segments xs (npPercentile 75 xs)) ≤ 1/4 := by
  have hperm : (xs.insertionSort (· ≤ ·)).Perm xs := List.perm_insertionSort _ xs
  have hslen : (xs.insertionSort (· ≤ ·)).length = 4 * m := by
    rw [List.length_insertionSort, hlen]
  have hsorted : (xs.insertionSort (· ≤ ·)).Sorted (· ≤ ·) :=
    List.sorted_insertionSort _ xs
  have hk1 : 3 * m - 1 < (xs.insertionSort (· ≤ ·)).length := by omega
  have hk2 : 3 * m < (xs.insertionSort (· ≤ ·)).length := by omega
  have hfloor : ⌊(75 : ℚ) / 100 * ((xs.length : ℚ) - 1)⌋ = 3 * (m : ℤ) - 1 := by
    rw [hlen, Int.floor_eq_iff]
    push_cast
    constructor
    · nlinarith [hm]
    · nlinarith [hm]
  have htoNat : (⌊(75 : ℚ) / 100 * ((xs.length : ℚ) - 1)⌋).toNat = 3 * m - 1 := by
    rw [hfloor]
    omega
  set s := xs.insertionSort (· ≤ ·) with hsdef
  have hta : npPercentile 75 xs =
      s.get ⟨3 * m - 1, hk1⟩ +
        ((75 : ℚ) / 100 * ((xs.length : ℚ) - 1) - ((3 * m - 1 : ℕ) : ℚ)) *
          (s.get ⟨3 * m, hk2⟩ - s.get ⟨3 * m - 1, hk1⟩) := by
    show (if xs.length = 0 then (0 : ℚ) else _) = _
    rw [if_neg (by omega)]
    rw [htoNat]
    rw [List.getD_eq_getElem s 0 hk1, List.getD_eq_getElem s _ (by omega : 3 * m - 1 + 1 < s.length)]
    have h31 : 3 * m - 1 + 1 = 3 * m := by omega
    simp only [h31]
    rfl
  have hd : (75 : ℚ) / 100 * ((xs.length : ℚ) - 1) - ((3 * m - 1 : ℕ) : ℚ) = 1/4 := by
    rw [hlen]
    have : ((3 * m - 1 : ℕ) : ℚ) = 3 * (m : ℚ) - 1 := by
      push_cast [Nat.cast_sub (by omega : 1 ≤ 3 * m)]
      ring
    rw [this]
    push_cast
    ring
  have hab : s.get ⟨3 * m - 1, hk1⟩ ≤ s.get ⟨3 * m, hk2⟩ := by
    apply hsorted.rel_get_of_lt
    simp [Fin.lt_def]
    omega
  have htge : s.get ⟨3 * m - 1, hk1⟩ ≤ npPercentile 75 xs := by
    rw [hta, hd]
    linarith
  have hcount : s.countP (fun x => decide (npPercentile 75 xs < x)) ≤ m := by
    have hb := countP_gt_le_of_sorted s hsorted (3 * m - 1) hk1
      (npPercentile 75 xs) htge
    omega
  have hcount' : xs.countP (fun x => decide (npPercentile 75 xs < x)) ≤ m :=
    (hperm.countP_eq _).symm ▸ hcount
  unfold npMeanBool detect_motion_segments
  rw [List.countP_map, List.length_map]
  have hcomp : (id ∘ fun a => decide (npPercentile 75 xs < a)) =
      fun x => decide (npPercentile 75 xs < x) := rfl
  rw [hcomp, hlen]
  have hpos : (0 : ℚ) < ((4 * m : ℕ) : ℚ) := by
    push_cast
    positivity
  rw [div_le_iff₀ hpos]
  push_cast
  have : (xs.countP (fun x => decide (npPercentile 75 xs < x)) : ℚ) ≤ (m : ℚ) := by
    exact_mod_cast hcount'
  nlinarith

/-- C10: on any window whose length is a positive multiple of 4 (the shipped
`WINDOW_SIZE = 500` included), when the motion threshold is the shipped
75th percentile of that same window's acceleration magnitudes, the strict
`>` mask can flag at most a quarter of the samples, so the motion mean never
exceeds the 0.3 boundary and `adaptive_wavelet_filter`'s per-band threshold
always takes the `THRESHOLD_MULTIPLIER_LOW_MOTION` branch on the first
window. -/
theorem claim_C10_first_window_low_motion
    (xs : List ℚ) (m : ℕ) (hm : 1 ≤ m) (hlen : xs.length = 4 * m) :
    npMeanBool (detect_motion_segments xs
      (npPercentile holterConfig.ACC_THRESHOLD_PERCENTILE xs)) ≤ 1/4 ∧
    ¬ (npMeanBool (detect_motion_segments xs
      (npPercentile holterConfig.ACC_THRESHOLD_PERCENTILE xs)) > 3/10) ∧
    ∀ tb : ℚ, ∀ nc i : ℕ,
      bandThreshold holterConfig tb
        (npMeanBool (detect_motion_segments xs
          (npPercentile holterConfig.ACC_THRESHOLD_PERCENTILE xs))) nc i =
      tb * holterConfig.THRESHOLD_MULTIPLIER_LOW_MOTION * (3/2) ^ (nc - i) := by
  have h75 : holterConfig.ACC_THRESHOLD_PERCENTILE = 75 := rfl
  rw [h75]
  have h14 := percentile75_mask_mean_le xs m hm hlen
  have hnot : ¬ (npMeanBool (detect_motion_segments xs (npPercentile 75 xs)) > 3/10) := by
    intro hgt
    linarith
  refine ⟨h14, hnot, ?_⟩
  intro tb nc i
  unfold bandThreshold
  rw [if_neg hnot]

theorem claim_C10_witness :
    1 ≤ 1 ∧ ([1, 2, 3, 4] : List ℚ).length = 4 * 1 ∧
    npMeanBool (detect_motion_segments [1, 2, 3, 4]
      (npPercentile holterConfig.ACC_THRESHOLD_PERCENTILE [1, 2, 3, 4])) ≤ 1/4 :=
  ⟨le_refl 1, rfl,
    (claim_C10_first_window_low_motion [1, 2, 3, 4] 1 (le_refl 1) rfl).1⟩
